import Mathlib

/-
Verification of the `intele` input-correlation engine (package `intele`,
file `errors.go`: `pendingRequest`, `InputManager.MessageHandler`,
`InputManager.CallbackHandler`, `InputManager.Cancel`, `InputManager.Get`,
sentinels `ErrTimeout` / `ErrTooManyConcurrent`; file `storage/storage.go`:
`MemoryStorage`).

Shallow embedding conventions:
  * Go maps (`sync.Map`, `map[int64]string`) are association lists with
    first-match lookup; `aset` replaces the first binding or appends,
    `aerase` removes every binding of a key — the canonical map operations.
  * `*pendingRequest` pointers become numeric heap ids: the engine state
    carries a heap `Nat → pendingRequest` (as an association list) plus the
    registry `int64 → heap id`, so a record can stay reachable from a
    running `Get` after the registry entry is overwritten or deleted,
    exactly as a Go pointer does.
  * The `StateStorage` collaborator follows `MemoryStorage` semantics
    (`Get` of a missing key yields `""` and no error, expiration ignored),
    extended with a fault set `setFail` of users for which `Set` fails, to
    cover the interface's error case that `Get` must handle.
  * Concurrency is modelled by sequential interleaving: every handler
    invocation, and every `Cancel`, is one atomic step; the polling loop of
    `Get` observes the environment's steps between its poll ticks via an
    explicit schedule (`Tick`: actions applied before the tick, the
    context's done flag at the tick, and the elapsed time `time.Since(start)`
    observed at the tick).
  * `strings.TrimSpace` and `strings.Split` are embedded as structurally
    recursive functions on the character list of a string.
-/

namespace Intele

/-! ### Association lists (Go map semantics) -/

/-- First-match lookup in an association list (Go map read). -/
def alookup {α β : Type} [DecidableEq α] : List (α × β) → α → Option β
  | [], _ => none
  | (k', v') :: t, k => if k' = k then some v' else alookup t k

/-- Replace the first binding of `k`, or append one (Go map write). -/
def aset {α β : Type} [DecidableEq α] : List (α × β) → α → β → List (α × β)
  | [], k, v => [(k, v)]
  | (k', v') :: t, k, v => if k' = k then (k, v) :: t else (k', v') :: aset t k v

/-- Remove every binding of `k` (Go map delete). -/
def aerase {α β : Type} [DecidableEq α] : List (α × β) → α → List (α × β)
  | [], _ => []
  | (k', v') :: t, k => if k' = k then aerase t k else (k', v') :: aerase t k

/-! ### Go `strings` primitives used by the callback handler -/

/-- Characters trimmed by Go's `strings.TrimSpace` (ASCII range). -/
def isGoSpace (c : Char) : Bool :=
  c = ' ' ∨ c = '\t' ∨ c = '\n' ∨ c = '\x0b' ∨ c = '\x0c' ∨ c = '\r'

/-- `strings.TrimSpace`: drop leading and trailing whitespace. -/
def goTrimSpace (s : String) : String :=
  ⟨((s.data.dropWhile isGoSpace).reverse.dropWhile isGoSpace).reverse⟩

/-- Split a character list at a separator character; Go's
`strings.Split(s, sep)` for a one-character separator (never empty:
splitting the empty string yields `[""]`). -/
def splitChar (sep : Char) : List Char → List (List Char)
  | [] => [[]]
  | c :: t =>
    if c = sep then [] :: splitChar sep t
    else
      match splitChar sep t with
      | [] => [[c]]
      | h :: r => (c :: h) :: r

/-- First segment of `strings.Split(s, "|")`, i.e. `data[0]` in the source. -/
def firstSegment (s : String) : String :=
  ⟨(splitChar '|' s.data).headD []⟩

/-! ### Data model (`errors.go`) -/

/-- `tele.Message`: opaque payload, identified by an id. -/
structure Message where
  id : Nat
deriving DecidableEq, Repr

/-- `tele.Callback`: the two fields the engine reads. -/
structure Callback where
  unique : String
  data : String
deriving DecidableEq, Repr

/-- `pendingRequest` (without the mutex, which the atomic-step semantics
absorbs). `callbacks` holds the `CallbackUnique()` string of each registered
`tele.CallbackEndpoint`. -/
structure PendingRequest where
  message : Option Message := none
  callback : Option Callback := none
  completed : Bool := false
  canceled : Bool := false
  callbacks : List String := []
deriving DecidableEq, Repr

/-- `Response` returned by `Get`. -/
structure Response where
  message : Option Message := none
  callback : Option Callback := none
  canceled : Bool := false
deriving DecidableEq, Repr

/-- Error outcomes: the two sentinels of `errors.go`, the context's own
error, and a storage-write failure surfaced verbatim by `Get`. -/
inductive Err where
  | timeout
  | tooManyConcurrent
  | ctx
  | storageSet
deriving DecidableEq, Repr

/-- `stateWaitingInput` marker constant. -/
def stateWaitingInput : String := "waiting_input"

/-- The whole engine state: record heap, fresh-id counter, the
`InputManager.requests` registry, the `StateStorage` contents, and the
fault set of users for which `storage.Set` fails. -/
structure EngineState where
  heap : List (Nat × PendingRequest) := []
  nextId : Nat := 0
  registry : List (Int × Nat) := []
  store : List (Int × String) := []
  setFail : List Int := []
deriving DecidableEq, Repr

/-- Dereference a heap id (total: ids are only ever created by the engine). -/
def heapGet (S : EngineState) (rid : Nat) : PendingRequest :=
  (alookup S.heap rid).getD {}

/-- Write through a heap id. -/
def heapSet (S : EngineState) (rid : Nat) (r : PendingRequest) : EngineState :=
  { S with heap := aset S.heap rid r }

/-- `storage.Get` with `MemoryStorage` semantics: missing key reads as `""`,
never an error. -/
def storGet (S : EngineState) (u : Int) : String :=
  (alookup S.store u).getD ""

/-- `storage.Delete`. -/
def storDelete (S : EngineState) (u : Int) : EngineState :=
  { S with store := aerase S.store u }

/-- `h.requests.LoadOrStore(userID, &pendingRequest{})`: return the existing
record's id, or allocate a fresh empty record. -/
def loadOrStore (S : EngineState) (u : Int) : EngineState × Nat :=
  match alookup S.registry u with
  | some rid => (S, rid)
  | none =>
    let rid := S.nextId
    ({ S with heap := aset S.heap rid {}
            , nextId := S.nextId + 1
            , registry := aset S.registry u rid }, rid)

/-! ### Inbound handlers, `Cancel` (`errors.go` lines 65–156) -/

/-- An inbound text-message event: the sender and `c.Message()`
(`none` models a nil message). -/
structure MsgEvent where
  userID : Int
  msg : Option Message
deriving DecidableEq, Repr

/-- An inbound callback event: the sender, `c.Callback()`, and
`c.Message()` (the message the pressed button was attached to). -/
structure CbEvent where
  userID : Int
  cb : Callback
  msg : Option Message
deriving DecidableEq, Repr

/-- Body of `MessageHandler`'s returned closure. -/
def messageHandler (S : EngineState) (e : MsgEvent) : EngineState × Option Err :=
  match e.msg with
  | none => (S, none)
  | some m =>
    if storGet S e.userID ≠ stateWaitingInput then (S, none)
    else
      let p := loadOrStore S e.userID
      let req := heapGet p.1 p.2
      let S2 := heapSet p.1 p.2 { req with message := some m, completed := true }
      (storDelete S2 e.userID, none)

/-- The discriminator tag of a callback: `TrimSpace(Unique)` when the
`Unique` field is non-empty, otherwise the trimmed first pipe-delimited
segment of `Data`. -/
def callbackUniqueOf (cb : Callback) : String :=
  if cb.unique = "" then goTrimSpace (firstSegment cb.data)
  else goTrimSpace cb.unique

/-- The match loop of `CallbackHandler`: some registered endpoint's trimmed
`CallbackUnique()` equals the event's discriminator tag. -/
def cbMatches (matchers : List String) (cb : Callback) : Bool :=
  matchers.any fun m => goTrimSpace m == callbackUniqueOf cb

/-- Body of `CallbackHandler`'s returned closure (the `c.Respond` ack has no
engine-state effect and is elided). -/
def callbackHandler (S : EngineState) (e : CbEvent) : EngineState × Option Err :=
  if storGet S e.userID ≠ stateWaitingInput then (S, none)
  else
    let p := loadOrStore S e.userID
    let req := heapGet p.1 p.2
    if cbMatches req.callbacks e.cb then
      let S2 := heapSet p.1 p.2
        { req with callback := some e.cb, message := e.msg, completed := true }
      (storDelete S2 e.userID, none)
    else (p.1, none)

/-- `InputManager.Cancel`. -/
def cancel (S : EngineState) (u : Int) : EngineState :=
  match alookup S.registry u with
  | none => S
  | some rid =>
    let req := heapGet S rid
    let S1 := heapSet S rid { req with canceled := true, completed := true }
    let S2 := storDelete S1 u
    { S2 with registry := aerase S2.registry u }

/-! ### `Get` (`errors.go` lines 176–223) -/

/-- One environment step that can interleave with a running `Get`. -/
inductive EnvAction where
  | msg (e : MsgEvent)
  | cb (e : CbEvent)
  | cancelReq (u : Int)
deriving DecidableEq, Repr

/-- Apply one environment step. -/
def applyAction (S : EngineState) : EnvAction → EngineState
  | .msg e => (messageHandler S e).1
  | .cb e => (callbackHandler S e).1
  | .cancelReq u => cancel S u

/-- Apply a batch of environment steps in order. -/
def applyActions (S : EngineState) (l : List EnvAction) : EngineState :=
  l.foldl applyAction S

/-- Is an environment step a callback delivery? -/
def actIsCb : EnvAction → Bool
  | .cb _ => true
  | _ => false

/-- One poll tick of `Get`'s wait loop, as observed by the waiting call:
the environment steps that ran since the previous tick, whether
`ctx.Done()` is closed at this tick, and `time.Since(start)` at this tick. -/
structure Tick where
  acts : List EnvAction
  ctxDone : Bool
  elapsed : Int
deriving DecidableEq, Repr

/-- Decision of one iteration of `Get`'s `for`/`select` loop, in source
order: context first, then the completion flag under the lock, then the
timeout comparison `timeout > 0 && time.Since(start) > timeout`. -/
inductive PollOutcome where
  | ctxCanceled
  | done (r : Response)
  | timedOut
  | keepWaiting
deriving DecidableEq, Repr

/-- One iteration's decision. -/
def pollStep (req : PendingRequest) (ctxDone : Bool) (timeout elapsed : Int) :
    PollOutcome :=
  if ctxDone then .ctxCanceled
  else if req.completed then
    .done { message := req.message, callback := req.callback, canceled := req.canceled }
  else if 0 < timeout ∧ timeout < elapsed then .timedOut
  else .keepWaiting

/-- Result of a `Get` call: the engine state at return, the `Response`,
and the returned error. -/
structure GetResult where
  state : EngineState
  resp : Response
  err : Option Err
deriving DecidableEq, Repr

/-- The deferred cleanup of `Get`: `h.storage.Delete(userID)` then
`h.requests.Delete(userID)`. -/
def getCleanup (S : EngineState) (u : Int) : EngineState :=
  let S1 := storDelete S u
  { S1 with registry := aerase S1.registry u }

/-- The entry sequence of `Get` (lines 177–187): build the record with the
given endpoints, unconditionally `Store` it in the registry, then
`storage.Set(userID, stateWaitingInput, timeout)`; on a `Set` failure delete
the registry entry and surface the error (the expiration hint is ignored,
as by `MemoryStorage`). -/
def getStart (S : EngineState) (u : Int) (matchers : List String) :
    Except GetResult (EngineState × Nat) :=
  let rid := S.nextId
  let S1 := { S with heap := aset S.heap rid { callbacks := matchers }
                   , nextId := S.nextId + 1
                   , registry := aset S.registry u rid }
  if u ∈ S.setFail then
    .error ⟨{ S1 with registry := aerase S1.registry u }, {}, some .storageSet⟩
  else
    .ok ({ S1 with store := aset S1.store u stateWaitingInput }, rid)

/-- `Get`'s polling loop over a finite schedule of ticks; `none` means the
schedule ran out with the call still waiting. Every return goes through the
deferred `getCleanup`. -/
def getLoop (S : EngineState) (u : Int) (rid : Nat) (timeout : Int) :
    List Tick → Option GetResult
  | [] => none
  | t :: ts =>
    let S1 := applyActions S t.acts
    match pollStep (heapGet S1 rid) t.ctxDone timeout t.elapsed with
    | .ctxCanceled => some ⟨getCleanup S1 u, { canceled := true }, some .ctx⟩
    | .done r => some ⟨getCleanup S1 u, r, none⟩
    | .timedOut => some ⟨getCleanup S1 u, {}, some .timeout⟩
    | .keepWaiting => getLoop S1 u rid timeout ts

/-- The whole of `Get(ctx, userID, timeout, callback...)` under a schedule. -/
def getRun (S : EngineState) (u : Int) (timeout : Int) (matchers : List String)
    (ticks : List Tick) : Option GetResult :=
  match getStart S u matchers with
  | .error r => some r
  | .ok p => getLoop p.1 u p.2 timeout ticks

/-- No record in the heap carries a captured callback. -/
def heapCbNone (S : EngineState) : Prop :=
  ∀ rid, (heapGet S rid).callback = none

/-- No tick of a schedule delivers a callback event. -/
def scheduleNoCb (ticks : List Tick) : Prop :=
  ∀ t ∈ ticks, ∀ a ∈ t.acts, actIsCb a = false

/-! ### Helper lemmas -/

theorem alookup_aset {α β : Type} [DecidableEq α] (l : List (α × β)) (k : α)
    (v : β) (k' : α) :
    alookup (aset l k v) k' = if k' = k then some v else alookup l k' := by
  induction l with
  | nil =>
    by_cases h : k' = k
    · simp [aset, alookup, h]
    · simp [aset, alookup, h, Ne.symm h]
  | cons p t ih =>
    obtain ⟨a, b⟩ := p
    by_cases hak : a = k
    · subst hak
      by_cases h : k' = a
      · simp [aset, alookup, h]
      · simp [aset, alookup, h, Ne.symm h]
    · by_cases h : k' = k
      · subst h
        simp [aset, alookup, hak, ih, Ne.symm hak]
      · by_cases h2 : a = k' <;> simp [aset, alookup, hak, h, h2, ih]

theorem alookup_aerase {α β : Type} [DecidableEq α] (l : List (α × β)) (k k' : α) :
    alookup (aerase l k) k' = if k' = k then none else alookup l k' := by
  induction l with
  | nil =>
    by_cases h : k' = k <;> simp [aerase, alookup, h]
  | cons p t ih =>
    obtain ⟨a, b⟩ := p
    by_cases hak : a = k
    · subst hak
      by_cases h : k' = a
      · subst h
        simp [aerase, alookup, ih]
      · simp [aerase, alookup, h, Ne.symm h, ih]
    · by_cases h2 : a = k'
      · subst h2
        simp [aerase, alookup, hak]
      · simp [aerase, alookup, hak, h2, ih]

theorem heapGet_heapSet (S : EngineState) (rid : Nat) (q : PendingRequest)
    (rid' : Nat) :
    heapGet (heapSet S rid q) rid' = if rid' = rid then q else heapGet S rid' := by
  by_cases h : rid' = rid <;> simp [heapGet, heapSet, alookup_aset, h]

theorem loadOrStore_of_lookup (S : EngineState) (u : Int) (rid : Nat)
    (h : alookup S.registry u = some rid) : loadOrStore S u = (S, rid) := by
  simp [loadOrStore, h]

theorem messageHandler_not_waiting (S : EngineState) (e : MsgEvent)
    (h : storGet S e.userID ≠ stateWaitingInput) : messageHandler S e = (S, none) := by
  cases hm : e.msg <;> simp [messageHandler, hm, h]

theorem callbackHandler_not_waiting (S : EngineState) (e : CbEvent)
    (h : storGet S e.userID ≠ stateWaitingInput) : callbackHandler S e = (S, none) := by
  simp [callbackHandler, h]

theorem messageHandler_err (S : EngineState) (e : MsgEvent) :
    (messageHandler S e).2 = none := by
  cases hm : e.msg with
  | none => simp [messageHandler, hm]
  | some m =>
    by_cases h : storGet S e.userID = stateWaitingInput <;>
      simp [messageHandler, hm, h]

theorem callbackHandler_err (S : EngineState) (e : CbEvent) :
    (callbackHandler S e).2 = none := by
  by_cases h : storGet S e.userID = stateWaitingInput
  · by_cases hmat : cbMatches (heapGet (loadOrStore S e.userID).1
        (loadOrStore S e.userID).2).callbacks e.cb <;>
      simp [callbackHandler, h, hmat]
  · simp [callbackHandler, h]

theorem getLoop_state (u : Int) (rid : Nat) (timeout : Int) (ticks : List Tick) :
    ∀ (S : EngineState) (r : GetResult), getLoop S u rid timeout ticks = some r →
      ∃ S', r.state = getCleanup S' u := by
  induction ticks with
  | nil => intro S r h; simp [getLoop] at h
  | cons t ts ih =>
    intro S r h
    simp only [getLoop] at h
    split at h
    · exact ⟨_, by simpa using congrArg GetResult.state (Option.some.inj h).symm⟩
    · exact ⟨_, by simpa using congrArg GetResult.state (Option.some.inj h).symm⟩
    · exact ⟨_, by simpa using congrArg GetResult.state (Option.some.inj h).symm⟩
    · exact ih _ _ h

theorem getLoop_err (u : Int) (rid : Nat) (timeout : Int) (ticks : List Tick) :
    ∀ (S : EngineState) (r : GetResult), getLoop S u rid timeout ticks = some r →
      r.err = none ∨ r.err = some .ctx ∨ r.err = some .timeout := by
  induction ticks with
  | nil => intro S r h; simp [getLoop] at h
  | cons t ts ih =>
    intro S r h
    simp only [getLoop] at h
    split at h
    · right; left; simpa using congrArg GetResult.err (Option.some.inj h).symm
    · left; simpa using congrArg GetResult.err (Option.some.inj h).symm
    · right; right; simpa using congrArg GetResult.err (Option.some.inj h).symm
    · exact ih _ _ h

theorem pollStep_done_resp (req : PendingRequest) (c : Bool) (timeout elapsed : Int)
    (r : Response) (h : pollStep req c timeout elapsed = .done r) :
    r = { message := req.message, callback := req.callback, canceled := req.canceled } := by
  by_cases hc : c
  · simp [pollStep, hc] at h
  · by_cases hcomp : req.completed
    · simp [pollStep, hc, hcomp] at h
      exact h.symm
    · by_cases hto : 0 < timeout ∧ timeout < elapsed <;>
        simp [pollStep, hc, hcomp, hto] at h

theorem heapCbNone_set (S S' : EngineState) (rid : Nat) (q : PendingRequest)
    (hq : q.callback = none) (hS : heapCbNone S)
    (hh : S'.heap = aset S.heap rid q) : heapCbNone S' := by
  intro rid'
  by_cases h : rid' = rid
  · simp [heapGet, hh, alookup_aset, h, hq]
  · have := hS rid'
    simpa [heapGet, hh, alookup_aset, h] using this

theorem heapCbNone_messageHandler (S : EngineState) (e : MsgEvent)
    (hS : heapCbNone S) : heapCbNone (messageHandler S e).1 := by
  cases hm : e.msg with
  | none => simpa [messageHandler, hm] using hS
  | some m =>
    by_cases hw : storGet S e.userID = stateWaitingInput
    · have hp1 : heapCbNone (loadOrStore S e.userID).1 := by
        cases hreg : alookup S.registry e.userID with
        | some rid => simpa [loadOrStore, hreg] using hS
        | none =>
          refine heapCbNone_set S _ S.nextId {} rfl hS ?_
          simp [loadOrStore, hreg]
      have hreq : (heapGet (loadOrStore S e.userID).1
          (loadOrStore S e.userID).2).callback = none := hp1 _
      have hres : (messageHandler S e).1 = storDelete
          (heapSet (loadOrStore S e.userID).1 (loadOrStore S e.userID).2
            { heapGet (loadOrStore S e.userID).1 (loadOrStore S e.userID).2 with
                message := some m, completed := true }) e.userID := by
        simp [messageHandler, hm, hw]
      rw [hres]
      exact heapCbNone_set (loadOrStore S e.userID).1 _
        (loadOrStore S e.userID).2
        { heapGet (loadOrStore S e.userID).1 (loadOrStore S e.userID).2 with
            message := some m, completed := true }
        hreq hp1 (by simp [storDelete, heapSet])
    · simpa [messageHandler, hm, hw] using hS

theorem heapCbNone_cancel (S : EngineState) (u : Int)
    (hS : heapCbNone S) : heapCbNone (cancel S u) := by
  cases hreg : alookup S.registry u with
  | none => simpa [cancel, hreg] using hS
  | some rid =>
    have hres : cancel S u =
        { storDelete (heapSet S rid
            { heapGet S rid with canceled := true, completed := true }) u with
          registry := aerase (storDelete (heapSet S rid
            { heapGet S rid with canceled := true, completed := true }) u).registry u } := by
      simp [cancel, hreg]
    rw [hres]
    exact heapCbNone_set S _ rid
      { heapGet S rid with canceled := true, completed := true }
      (hS rid) hS (by simp [storDelete, heapSet])

theorem heapCbNone_applyAction (S : EngineState) (a : EnvAction)
    (ha : actIsCb a = false) (hS : heapCbNone S) : heapCbNone (applyAction S a) := by
  cases a with
  | msg e => exact heapCbNone_messageHandler S e hS
  | cb e => simp [actIsCb] at ha
  | cancelReq u => exact heapCbNone_cancel S u hS

theorem heapCbNone_applyActions (l : List EnvAction) :
    ∀ (S : EngineState), heapCbNone S → (∀ a ∈ l, actIsCb a = false) →
      heapCbNone (applyActions S l) := by
  induction l with
  | nil => intro S hS _; simpa [applyActions] using hS
  | cons a t ih =>
    intro S hS hl
    have h1 : heapCbNone (applyAction S a) :=
      heapCbNone_applyAction S a (hl a (by simp)) hS
    have : applyActions S (a :: t) = applyActions (applyAction S a) t := rfl
    rw [this]
    exact ih _ h1 fun a' ha' => hl a' (by simp [ha'])

theorem getLoop_cb_none (u : Int) (rid : Nat) (timeout : Int) (ticks : List Tick) :
    ∀ (S : EngineState) (r : GetResult), heapCbNone S → scheduleNoCb ticks →
      getLoop S u rid timeout ticks = some r → r.resp.callback = none := by
  induction ticks with
  | nil => intro S r _ _ h; simp [getLoop] at h
  | cons t ts ih =>
    intro S r hS hsched h
    have hS1 : heapCbNone (applyActions S t.acts) :=
      heapCbNone_applyActions t.acts S hS fun a ha =>
        hsched t (by simp) a ha
    simp only [getLoop] at h
    split at h
    · cases Option.some.inj h
      rfl
    · rename_i resp heq
      cases Option.some.inj h
      have := pollStep_done_resp _ _ _ _ _ heq
      simp [this, hS1 rid]
    · cases Option.some.inj h
      rfl
    · exact ih _ _ hS1 (fun t' ht' => hsched t' (by simp [ht'])) h

theorem pollStep_not_timedOut_of_nonpos (req : PendingRequest) (c : Bool)
    (timeout elapsed : Int) (h : timeout ≤ 0) :
    pollStep req c timeout elapsed ≠ .timedOut := by
  have : ¬ (0 < timeout ∧ timeout < elapsed) := fun hc => absurd hc.1 (not_lt.mpr h)
  by_cases hc : c <;> by_cases hcomp : req.completed <;>
    simp [pollStep, hc, hcomp, this]

theorem getLoop_no_timeout (u : Int) (rid : Nat) (timeout : Int)
    (hto : timeout ≤ 0) (ticks : List Tick) :
    ∀ (S : EngineState) (r : GetResult), getLoop S u rid timeout ticks = some r →
      r.err ≠ some .timeout := by
  induction ticks with
  | nil => intro S r h; simp [getLoop] at h
  | cons t ts ih =>
    intro S r h
    simp only [getLoop] at h
    split at h
    · cases Option.some.inj h
      simp
    · cases Option.some.inj h
      simp
    · rename_i heq
      exact absurd heq (pollStep_not_timedOut_of_nonpos _ _ _ _ hto)
    · exact ih _ _ h

/-! ### Claim theorems -/

/-- Claim C3: on every exit path of `Get` — normal completion, context
cancellation, timeout, and storage-write failure — neither a Registry entry
nor a `waiting_input` StateStore marker for the user survives the call (the
call itself starts with no stale marker for the user; on the storage-write
failure path the marker was never written, and the other paths run the
deferred cleanup). -/
theorem C3_cleanup_every_exit (S : EngineState) (u : Int) (timeout : Int)
    (ms : List String) (ticks : List Tick) (r : GetResult)
    (hstore : alookup S.store u ≠ some stateWaitingInput)
    (hrun : getRun S u timeout ms ticks = some r) :
    alookup r.state.registry u = none ∧
    alookup r.state.store u ≠ some stateWaitingInput := by
  by_cases hf : u ∈ S.setFail
  · simp only [getRun, getStart, hf, if_true] at hrun
    cases Option.some.inj hrun
    refine ⟨by simp [alookup_aerase], by simpa using hstore⟩
  · simp only [getRun, getStart, hf, if_false] at hrun
    obtain ⟨S', hS'⟩ := getLoop_state u S.nextId timeout ticks _ r hrun
    rw [hS']
    exact ⟨by simp [getCleanup, storDelete, alookup_aerase],
           by simp [getCleanup, storDelete, alookup_aerase]⟩

/-- Witness for C3 at a concrete input: a context-cancelled run from the
empty engine state leaves no registry entry and no waiting marker. -/
theorem C3_witness :
    alookup (({} : EngineState)).store 1 ≠ some stateWaitingInput ∧
    alookup (({ heap := [(0, {})], nextId := 1 } : EngineState)).registry 1 = none ∧
    alookup (({ heap := [(0, {})], nextId := 1 } : EngineState)).store 1 ≠
      some stateWaitingInput :=
  ⟨by decide,
   C3_cleanup_every_exit {} 1 0 [] [⟨[], true, 0⟩]
     ⟨{ heap := [(0, {})], nextId := 1 }, { canceled := true }, some .ctx⟩
     (by decide) (by decide)⟩

/-- Claim C6: if the context supplied to `Get` is done (cancelled or
deadline exceeded) at a poll tick, `Get` returns a `Response` with
`Canceled = true` together with the context's own error, for every timeout
value. -/
theorem C6_context_cancellation (S : EngineState) (u : Int) (timeout : Int)
    (ms : List String) (acts : List EnvAction) (elapsed : Int) (ts : List Tick)
    (hf : u ∉ S.setFail) :
    ∃ r, getRun S u timeout ms (⟨acts, true, elapsed⟩ :: ts) = some r ∧
      r.resp = { message := none, callback := none, canceled := true } ∧
      r.err = some Err.ctx := by
  have hrun : getRun S u timeout ms (⟨acts, true, elapsed⟩ :: ts) =
      some ⟨getCleanup (applyActions { S with
          heap := aset S.heap S.nextId { callbacks := ms }
        , nextId := S.nextId + 1
        , registry := aset S.registry u S.nextId
        , store := aset S.store u stateWaitingInput } acts) u,
        { canceled := true }, some Err.ctx⟩ := by
    simp [getRun, getStart, hf, getLoop, pollStep]
  exact ⟨_, hrun, rfl, rfl⟩

/-- Witness for C6 at a concrete input. -/
theorem C6_witness :
    (1 : Int) ∉ ({} : EngineState).setFail ∧
    ∃ r, getRun {} 1 7 [] [⟨[], true, 0⟩] = some r ∧
      r.resp = { message := none, callback := none, canceled := true } ∧
      r.err = some Err.ctx :=
  ⟨by decide, C6_context_cancellation {} 1 7 [] [] 0 [] (by decide)⟩

/-- Claim C7: `Cancel(u)` is a no-op when no Registry entry exists for `u`
(and it returns no error by its very shape — the source function has no
return value); otherwise it sets `canceled = true` and `completed = true`
unconditionally (no hypothesis on the record's prior `completed` flag) and
immediately deletes both the StateStore entry and the Registry entry. -/
theorem C7_cancel_semantics (S : EngineState) (u : Int) (rid : Nat) :
    (alookup S.registry u = none → cancel S u = S) ∧
    (alookup S.registry u = some rid →
      (heapGet (cancel S u) rid).canceled = true ∧
      (heapGet (cancel S u) rid).completed = true ∧
      alookup (cancel S u).store u = none ∧
      alookup (cancel S u).registry u = none) := by
  constructor
  · intro h
    simp [cancel, h]
  · intro h
    refine ⟨?_, ?_, ?_, ?_⟩ <;>
      simp [cancel, h, heapGet, heapSet, storDelete, alookup_aset,
            alookup_aerase]

/-- Witness for C7 at concrete inputs: the no-op case on the empty state
and the full case on a state holding an (already completed) request. -/
theorem C7_witness :
    (cancel {} 1 = {}) ∧
    ((heapGet (cancel (⟨[(0, { completed := true })], 1, [(1, 0)], [(1, stateWaitingInput)], []⟩ : EngineState) 1) 0).canceled = true ∧
     (heapGet (cancel (⟨[(0, { completed := true })], 1, [(1, 0)], [(1, stateWaitingInput)], []⟩ : EngineState) 1) 0).completed = true ∧
     alookup (cancel (⟨[(0, { completed := true })], 1, [(1, 0)], [(1, stateWaitingInput)], []⟩ : EngineState) 1).store 1 = none ∧
     alookup (cancel (⟨[(0, { completed := true })], 1, [(1, 0)], [(1, stateWaitingInput)], []⟩ : EngineState) 1).registry 1 = none) :=
  ⟨(C7_cancel_semantics {} 1 0).1 (by decide),
   (C7_cancel_semantics ⟨[(0, { completed := true })], 1, [(1, 0)], [(1, stateWaitingInput)], []⟩ 1 0).2 (by decide)⟩

/-- Claim C8: for a user whose StateStore entry is not the `waiting_input`
marker (in particular, absent), delivering any inbound event for that user
leaves the entire engine state unchanged, and both inbound handlers return
a nil error on every input whatsoever. -/
theorem C8_no_wait_frame (S : EngineState) (e : MsgEvent) (e' : CbEvent) :
    (storGet S e.userID ≠ stateWaitingInput → messageHandler S e = (S, none)) ∧
    (storGet S e'.userID ≠ stateWaitingInput → callbackHandler S e' = (S, none)) ∧
    (messageHandler S e).2 = none ∧ (callbackHandler S e').2 = none :=
  ⟨messageHandler_not_waiting S e, callbackHandler_not_waiting S e',
   messageHandler_err S e, callbackHandler_err S e'⟩

/-- Witness for C8 at a concrete input: the empty state has no marker for
user 1, and both handlers leave it untouched with a nil error. -/
theorem C8_witness :
    messageHandler {} ⟨1, some ⟨5⟩⟩ = ({}, none) ∧
    callbackHandler {} ⟨1, ⟨"x", ""⟩, none⟩ = ({}, none) ∧
    (messageHandler {} ⟨1, some ⟨5⟩⟩).2 = none ∧
    (callbackHandler {} ⟨1, ⟨"x", ""⟩, none⟩).2 = none :=
  ⟨(C8_no_wait_frame {} ⟨1, some ⟨5⟩⟩ ⟨1, ⟨"x", ""⟩, none⟩).1 (by decide),
   (C8_no_wait_frame {} ⟨1, some ⟨5⟩⟩ ⟨1, ⟨"x", ""⟩, none⟩).2.1 (by decide),
   (C8_no_wait_frame {} ⟨1, some ⟨5⟩⟩ ⟨1, ⟨"x", ""⟩, none⟩).2.2.1,
   (C8_no_wait_frame {} ⟨1, some ⟨5⟩⟩ ⟨1, ⟨"x", ""⟩, none⟩).2.2.2⟩

/-- Claim C9: on a poll iteration whose context is still live and whose
record is already completed, `Get`'s loop returns the completed `Response`
with a nil error, for every timeout and elapsed-time value — in particular
when the configured timeout has already elapsed; completion is checked
before the timeout comparison, so a completed request never yields the
timeout sentinel. -/
theorem C9_completed_wins_over_timeout (S : EngineState) (u : Int) (rid : Nat)
    (timeout : Int) (acts : List EnvAction) (elapsed : Int) (ts : List Tick)
    (hcomp : (heapGet (applyActions S acts) rid).completed = true) :
    getLoop S u rid timeout (⟨acts, false, elapsed⟩ :: ts) =
      some ⟨getCleanup (applyActions S acts) u,
        { message := (heapGet (applyActions S acts) rid).message
        , callback := (heapGet (applyActions S acts) rid).callback
        , canceled := (heapGet (applyActions S acts) rid).canceled }, none⟩ := by
  simp [getLoop, pollStep, hcomp]

/-- Witness for C9 at a concrete input: a record already completed with
message 3 is returned with a nil error although `elapsed = 10` exceeds
`timeout = 5`. -/
theorem C9_witness :
    getLoop (⟨[(0, { message := some ⟨3⟩, completed := true })], 1, [(1, 0)], [(1, stateWaitingInput)], []⟩ : EngineState) 1 0 5 [⟨[], false, 10⟩] =
      some ⟨⟨[(0, { message := some ⟨3⟩, completed := true })], 1, [], [], []⟩,
        { message := some ⟨3⟩, callback := none, canceled := false }, none⟩ :=
  C9_completed_wins_over_timeout
    ⟨[(0, { message := some ⟨3⟩, completed := true })], 1, [(1, 0)], [(1, stateWaitingInput)], []⟩
    1 0 5 [] 10 [] (by decide)

/-- Claim C10: no public operation ever returns `ErrTooManyConcurrent`:
`Get` only ever returns the storage error, the context error, the timeout
sentinel or no error at all, and both inbound handlers always return a nil
error (`Cancel` has no error return in the source at all). -/
theorem C10_too_many_concurrent_unused (S : EngineState) (u : Int)
    (timeout : Int) (ms : List String) (ticks : List Tick) (r : GetResult)
    (e : MsgEvent) (e' : CbEvent) :
    (getRun S u timeout ms ticks = some r → r.err ≠ some Err.tooManyConcurrent) ∧
    (messageHandler S e).2 = none ∧ (callbackHandler S e').2 = none := by
  refine ⟨?_, messageHandler_err S e, callbackHandler_err S e'⟩
  intro hrun
  by_cases hf : u ∈ S.setFail
  · simp only [getRun, getStart, hf, if_true] at hrun
    cases Option.some.inj hrun
    simp
  · simp only [getRun, getStart, hf, if_false] at hrun
    rcases getLoop_err u S.nextId timeout ticks _ r hrun with h | h | h <;>
      simp [h]

/-- Witness for C10 at a concrete input: a timed-out run returns the
timeout sentinel, not `ErrTooManyConcurrent`, and both handlers return nil. -/
theorem C10_witness :
    ((⟨⟨[(0, {})], 1, [], [], []⟩, {}, some Err.timeout⟩ : GetResult).err ≠
      some Err.tooManyConcurrent) ∧
    (messageHandler {} ⟨1, some ⟨5⟩⟩).2 = none ∧
    (callbackHandler {} ⟨1, ⟨"x", ""⟩, none⟩).2 = none :=
  ⟨(C10_too_many_concurrent_unused {} 1 5 [] [⟨[], false, 10⟩]
      ⟨⟨[(0, {})], 1, [], [], []⟩, {}, some Err.timeout⟩
      ⟨1, some ⟨5⟩⟩ ⟨1, ⟨"x", ""⟩, none⟩).1 (by decide),
   (C10_too_many_concurrent_unused {} 1 5 [] [⟨[], false, 10⟩]
      ⟨⟨[(0, {})], 1, [], [], []⟩, {}, some Err.timeout⟩
      ⟨1, some ⟨5⟩⟩ ⟨1, ⟨"x", ""⟩, none⟩).2⟩

/-- Claim C4: when a Registry entry exists for the event's user, the
callback handler takes no action at all if no registered discriminator
matches or the matcher list is empty (never a wildcard match); whenever it
does change the state, the user's marker was `waiting_input` and the
event's discriminator — the trimmed `Unique` field or, when that field is
the empty string, the trimmed first pipe-delimited segment of `Data` —
equals some registered discriminator, itself trimmed. -/
theorem C4_callback_matching (S : EngineState) (e : CbEvent) (rid : Nat)
    (hreg : alookup S.registry e.userID = some rid) :
    (cbMatches (heapGet S rid).callbacks e.cb = false →
      callbackHandler S e = (S, none)) ∧
    ((heapGet S rid).callbacks = [] → callbackHandler S e = (S, none)) ∧
    ((callbackHandler S e).1 ≠ S →
      storGet S e.userID = stateWaitingInput ∧
      cbMatches (heapGet S rid).callbacks e.cb = true) ∧
    (cbMatches (heapGet S rid).callbacks e.cb = true ↔
      ∃ m ∈ (heapGet S rid).callbacks, goTrimSpace m = callbackUniqueOf e.cb) := by
  have hls := loadOrStore_of_lookup S e.userID rid hreg
  have hnomatch : cbMatches (heapGet S rid).callbacks e.cb = false →
      callbackHandler S e = (S, none) := by
    intro hm
    by_cases hw : storGet S e.userID = stateWaitingInput
    · simp [callbackHandler, hw, hls, hm]
    · exact callbackHandler_not_waiting S e hw
  refine ⟨hnomatch, ?_, ?_, ?_⟩
  · intro hnil
    exact hnomatch (by simp [cbMatches, hnil])
  · intro hne
    by_cases hw : storGet S e.userID = stateWaitingInput
    · by_cases hm : cbMatches (heapGet S rid).callbacks e.cb
      · exact ⟨hw, hm⟩
      · exact absurd (congrArg Prod.fst (hnomatch (by simpa using hm))) hne
    · exact absurd (congrArg Prod.fst (callbackHandler_not_waiting S e hw)) hne
  · simp [cbMatches, List.any_eq_true, beq_iff_eq]

/-- Witness for C4 at a concrete input: a waiting request registered for
discriminator "ok" ignores a callback whose discriminator is "nope". -/
theorem C4_witness :
    (callbackHandler (⟨[(0, { callbacks := ["ok"] })], 1, [(2, 0)], [(2, stateWaitingInput)], []⟩ : EngineState) ⟨2, ⟨"nope", ""⟩, none⟩ =
      ((⟨[(0, { callbacks := ["ok"] })], 1, [(2, 0)], [(2, stateWaitingInput)], []⟩ : EngineState), none)) ∧
    ¬ (cbMatches ["ok"] ⟨"nope", ""⟩ = true) :=
  ⟨(C4_callback_matching
      ⟨[(0, { callbacks := ["ok"] })], 1, [(2, 0)], [(2, stateWaitingInput)], []⟩
      ⟨2, ⟨"nope", ""⟩, none⟩ 0 (by decide)).1 (by decide),
   by decide⟩

/-- Claim C1 counterexample: the claim "`Get` never returns a `Result` in
which both the message and the callback fields are simultaneously
non-empty" is false at a concrete input: a `Get` for discriminator "btn"
completed by a matching callback event carrying message 7 returns a
`Response` whose message and callback are both non-empty (the callback
handler sets both fields, lines 124–128 of `errors.go`). -/
theorem C1_counterexample :
    ∃ r, getRun {} 1 0 ["btn"] [⟨[.cb ⟨1, ⟨"btn", ""⟩, some ⟨7⟩⟩], false, 0⟩] = some r ∧
      r.resp.message.isSome = true ∧ r.resp.callback.isSome = true ∧ r.err = none :=
  ⟨⟨⟨[(0, { message := some ⟨7⟩, callback := some ⟨"btn", ""⟩, completed := true, canceled := false, callbacks := ["btn"] })], 1, [], [], []⟩,
    { message := some ⟨7⟩, callback := some ⟨"btn", ""⟩, canceled := false }, none⟩,
   by decide, rfl, rfl, rfl⟩

/-- Claim C1 (amended): completions not driven by a callback event are
mutually exclusive — a `Get` whose schedule delivers no callback event
(message completions, cancellation, context cancellation or timeout only)
never returns a non-empty callback field; only a callback completion sets
the callback field, and it then also sets the associated message, by
design. -/
theorem C1_message_only_completion (S : EngineState) (u : Int) (timeout : Int)
    (ms : List String) (ticks : List Tick) (r : GetResult)
    (hS : heapCbNone S) (hsched : scheduleNoCb ticks)
    (hrun : getRun S u timeout ms ticks = some r) : r.resp.callback = none := by
  by_cases hf : u ∈ S.setFail
  · simp only [getRun, getStart, hf, if_true] at hrun
    cases Option.some.inj hrun
    rfl
  · simp only [getRun, getStart, hf, if_false] at hrun
    refine getLoop_cb_none u S.nextId timeout ticks _ r ?_ hsched hrun
    exact heapCbNone_set S _ S.nextId { callbacks := ms } rfl hS (by simp)

/-- Witness for the amended C1 at a concrete input: a wait completed by a
text-message event returns a `Response` with an empty callback field. -/
theorem C1_witness :
    heapCbNone {} ∧ scheduleNoCb [⟨[.msg ⟨1, some ⟨5⟩⟩], false, 0⟩] ∧
    (⟨⟨[(0, { message := some ⟨5⟩, completed := true })], 1, [], [], []⟩, { message := some ⟨5⟩, callback := none, canceled := false }, none⟩ : GetResult).resp.callback = none :=
  ⟨fun _ => rfl, by unfold scheduleNoCb; decide,
   C1_message_only_completion {} 1 0 [] [⟨[.msg ⟨1, some ⟨5⟩⟩], false, 0⟩]
     ⟨⟨[(0, { message := some ⟨5⟩, completed := true })], 1, [], [], []⟩, { message := some ⟨5⟩, callback := none, canceled := false }, none⟩
     (fun _ => rfl) (by unfold scheduleNoCb; decide) (by decide)⟩

/-- Claim C2 counterexample: "once `completed` is true, no handler or
`Cancel` call changes the record again" is false at a concrete input: a
request registered by `Get` (the state built by `getStart`) and completed by a
message event has `completed = true, canceled = false`, yet a subsequent
`Cancel` flips its `canceled` field to true — `Cancel` writes
unconditionally (lines 149–152 of `errors.go`). -/
theorem C2_counterexample :
    getStart {} 1 [] = Except.ok (⟨[(0, {})], 1, [(1, 0)], [(1, stateWaitingInput)], []⟩, 0) ∧
    (heapGet (messageHandler ⟨[(0, {})], 1, [(1, 0)], [(1, stateWaitingInput)], []⟩ ⟨1, some ⟨5⟩⟩).1 0).completed = true ∧
    (heapGet (messageHandler ⟨[(0, {})], 1, [(1, 0)], [(1, stateWaitingInput)], []⟩ ⟨1, some ⟨5⟩⟩).1 0).canceled = false ∧
    (heapGet (cancel (messageHandler ⟨[(0, {})], 1, [(1, 0)], [(1, stateWaitingInput)], []⟩ ⟨1, some ⟨5⟩⟩).1 1) 0).canceled = true :=
  ⟨rfl, by decide, by decide, by decide⟩

/-- Claim C2 (amended): each inbound handler acts only when the user's
StateStore entry is the `waiting_input` marker, and each deletes that
marker in the same atomic step in which it completes the record — the
message handler on any message completion, the callback handler on any
matched callback completion — so a record completed by a handler is never
written again by a handler; `Cancel`, however, sets `canceled = true` and
`completed = true` unconditionally — it changes even an already-completed
record (only the other fields are preserved). -/
theorem C2_guarded_handlers_unconditional_cancel (S : EngineState)
    (e : MsgEvent) (e' : CbEvent) (u : Int) (rid : Nat) :
    (storGet S e.userID ≠ stateWaitingInput → messageHandler S e = (S, none)) ∧
    (storGet S e'.userID ≠ stateWaitingInput → callbackHandler S e' = (S, none)) ∧
    (∀ m, e.msg = some m → storGet S e.userID = stateWaitingInput →
      alookup ((messageHandler S e).1).store e.userID = none) ∧
    (∀ rid2, alookup S.registry e'.userID = some rid2 →
      storGet S e'.userID = stateWaitingInput →
      cbMatches (heapGet S rid2).callbacks e'.cb = true →
      alookup ((callbackHandler S e').1).store e'.userID = none) ∧
    (alookup S.registry u = some rid →
      heapGet (cancel S u) rid =
        { heapGet S rid with canceled := true, completed := true }) := by
  refine ⟨messageHandler_not_waiting S e, callbackHandler_not_waiting S e',
    ?_, ?_, ?_⟩
  · intro m hm hw
    cases hreg : alookup S.registry e.userID <;>
      simp [messageHandler, hm, hw, loadOrStore, hreg, storDelete, heapSet,
        alookup_aerase]
  · intro rid2 hreg hw hm
    have hls := loadOrStore_of_lookup S e'.userID rid2 hreg
    simp [callbackHandler, hw, hls, hm, storDelete, heapSet, alookup_aerase]
  · intro h
    simp [cancel, h, heapGet, heapSet, storDelete, alookup_aset]

/-- Witness for the amended C2 at concrete inputs: the handlers leave the
empty (marker-free) state untouched, a message completion and a matched
callback completion each delete the marker, and `Cancel` marks an
already-completed record canceled. -/
theorem C2_witness :
    messageHandler {} ⟨1, some ⟨5⟩⟩ = ({}, none) ∧
    alookup ((messageHandler ⟨[(0, {})], 1, [(1, 0)], [(1, stateWaitingInput)], []⟩ ⟨1, some ⟨5⟩⟩).1).store 1 = none ∧
    alookup ((callbackHandler ⟨[(0, { callbacks := ["ok"] })], 1, [(2, 0)], [(2, stateWaitingInput)], []⟩ ⟨2, ⟨"ok", ""⟩, some ⟨9⟩⟩).1).store 2 = none ∧
    heapGet (cancel (⟨[(0, { completed := true })], 1, [(1, 0)], [], []⟩ : EngineState) 1) 0 =
      { ({ completed := true } : PendingRequest) with canceled := true, completed := true } :=
  ⟨(C2_guarded_handlers_unconditional_cancel {} ⟨1, some ⟨5⟩⟩ ⟨1, ⟨"x", ""⟩, none⟩ 1 0).1 (by decide),
   (C2_guarded_handlers_unconditional_cancel
      ⟨[(0, {})], 1, [(1, 0)], [(1, stateWaitingInput)], []⟩
      ⟨1, some ⟨5⟩⟩ ⟨1, ⟨"x", ""⟩, none⟩ 1 0).2.2.1 ⟨5⟩ rfl (by decide),
   (C2_guarded_handlers_unconditional_cancel
      (⟨[(0, { callbacks := ["ok"] })], 1, [(2, 0)], [(2, stateWaitingInput)], []⟩ : EngineState)
      ⟨1, some ⟨5⟩⟩ ⟨2, ⟨"ok", ""⟩, some ⟨9⟩⟩ 1 0).2.2.2.1 0 (by decide) (by decide) (by decide),
   (C2_guarded_handlers_unconditional_cancel
      (⟨[(0, { completed := true })], 1, [(1, 0)], [], []⟩ : EngineState)
      ⟨1, some ⟨5⟩⟩ ⟨1, ⟨"x", ""⟩, none⟩ 1 0).2.2.2.2 (by decide)⟩

/-- Claim C5 counterexample: "`Get` returns the timeout sentinel exactly
when the timeout is positive, the elapsed time exceeds it, and no
completion has been observed" is false at a concrete input: with
`timeout = 5`, `elapsed = 10` and the record not completed, but the
context already done, `Get` returns the context error, not `ErrTimeout` —
the context check precedes the timeout check. -/
theorem C5_counterexample :
    (0 : Int) < 5 ∧ (5 : Int) < 10 ∧
    (heapGet (⟨[(0, {})], 1, [(1, 0)], [(1, stateWaitingInput)], []⟩ : EngineState) 0).completed = false ∧
    getRun {} 1 5 [] [⟨[], true, 10⟩] =
      some ⟨⟨[(0, {})], 1, [], [], []⟩, { canceled := true }, some Err.ctx⟩ ∧
    some Err.ctx ≠ some Err.timeout := by
  refine ⟨by decide, by decide, by decide, by decide, by decide⟩

/-- Claim C5 (amended): a poll iteration yields the timeout sentinel
exactly when the context is not yet done, the record is not completed, the
timeout is positive and the elapsed time strictly exceeds it; and with
timeout zero a `Get` never returns `ErrTimeout`, relying only on the
context or an explicit `Cancel`. -/
theorem C5_timeout_characterization :
    (∀ (req : PendingRequest) (c : Bool) (timeout elapsed : Int),
      pollStep req c timeout elapsed = .timedOut ↔
        c = false ∧ req.completed = false ∧ 0 < timeout ∧ timeout < elapsed) ∧
    (∀ (S : EngineState) (u : Int) (ms : List String) (ticks : List Tick)
      (r : GetResult), getRun S u 0 ms ticks = some r →
        r.err ≠ some Err.timeout) := by
  constructor
  · intro req c timeout elapsed
    constructor
    · intro h
      by_cases hc : c
      · simp [pollStep, hc] at h
      · by_cases hcomp : req.completed
        · simp [pollStep, hc, hcomp] at h
        · by_cases hto : 0 < timeout ∧ timeout < elapsed
          · exact ⟨by simp [hc], by simp [hcomp], hto.1, hto.2⟩
          · simp [pollStep, hc, hcomp, hto] at h
    · rintro ⟨hc, hcomp, h1, h2⟩
      simp [pollStep, hc, hcomp, h1, h2]
  · intro S u ms ticks r hrun
    by_cases hf : u ∈ S.setFail
    · simp only [getRun, getStart, hf, if_true] at hrun
      cases Option.some.inj hrun
      simp
    · simp only [getRun, getStart, hf, if_false] at hrun
      exact getLoop_no_timeout u S.nextId 0 le_rfl ticks _ r hrun

/-- Witness for the amended C5 at concrete inputs: a live-context,
incomplete, positive-timeout, over-elapsed iteration does time out, and a
zero-timeout run returns the context error, never the timeout sentinel. -/
theorem C5_witness :
    pollStep {} false 5 10 = PollOutcome.timedOut ∧
    (⟨⟨[(0, {})], 1, [], [], []⟩, { canceled := true }, some Err.ctx⟩ : GetResult).err ≠ some Err.timeout :=
  ⟨(C5_timeout_characterization.1 {} false 5 10).mpr (by decide),
   C5_timeout_characterization.2 {} 1 [] [⟨[], true, 0⟩] _ (by decide)⟩

end Intele
